import Mathlib

/-!
# Managed-resource health check

A shallow embedding of
`extensions/pkg/controller/healthcheck/general/managed_resource.go`
(package `general`).

Go values are embedded as follows.

* An interface value (`client.Client`, `logr.Logger`, `error`) is an `Option`:
  `none` is the nil interface, the zero value that the struct literal in
  `CheckManagedResource` leaves in the fields `seedClient` and `logger`.  Calling a
  method on a nil interface value is a run-time panic (nil pointer dereference), so
  `Check` has three ways to end: a result, an error, or a panic.
* `*ManagedResourceHealthChecker` is an address into a `Heap` of structs.
* The calls `Check` makes to its collaborators (the accessor's `Get`, the status
  evaluator, the logger) are recorded, in order, in a list of `Event`s.
* `health.CheckManagedResource`, which lives outside this file, is a parameter
  `checkMR` of the functions that call it.
* The types and constants of other packages that the file uses are reduced to what the
  file reads from them.
-/

namespace General

/-! ## Data model -/

/-- A non-nil Go `error`; only the text returned by its `Error()` method is observed. -/
structure GoError where
  msg : String
deriving DecidableEq, Repr

/-- The error built by `fmt.Errorf` from an already formatted message. -/
def Errorf (s : String) : GoError := ⟨s⟩

/-- Modelled from the spec: `context.Context`, a cancellable execution context, observed
through `Err()`: `none` while the context is live. -/
structure Context where
  Err : Option GoError
deriving DecidableEq, Repr

deriving instance DecidableEq for Except

/-- The type `types.NamespacedName`. -/
structure NamespacedName where
  Namespace : String
  Name : String
deriving DecidableEq, Repr

/-- The type `client.ObjectKey`, an alias of `types.NamespacedName`. -/
abbrev ObjectKey := NamespacedName

/-- Modelled from the spec: one sub-condition of a managed resource, with a type, a
status and a message. -/
structure Condition where
  Kind : String
  Status : String
  Message : String
deriving DecidableEq, Repr

/-- Modelled from the spec: the part of `resourcesv1alpha1.ManagedResource` that the check
reads, which is the object's name and namespace, and the sub-conditions handed to the
status evaluator. -/
structure ManagedResource where
  Name : String
  Namespace : String
  Conditions : List Condition
deriving DecidableEq, Repr

/-- Modelled from the spec: a non-nil `client.Client`, reduced to the one method used
here, `Get(context, key) → (resourceObject, error)`.  `Get` either fails with an error or
fills the object passed to it; the filled object is the `ok` value. -/
structure Client where
  Get : Context → ObjectKey → Except GoError ManagedResource

/-- Modelled from the spec: a non-nil `logr.Logger`, identified by its name, the logging
identity. -/
structure Logger where
  name : String
deriving DecidableEq, Repr

/-- The call `log.Log.WithName(name)`: the root logger has no name of its own. -/
def Log.WithName (name : String) : Logger := ⟨name⟩

/-- The struct `ManagedResourceHealthChecker`. -/
structure ManagedResourceHealthChecker where
  logger : Option Logger
  seedClient : Option Client
  managedResourceName : String

/-- Modelled from the spec: the struct `healthcheck.SingleCheckResult`, with the three
fields that `Check` sets. -/
structure SingleCheckResult where
  Status : String
  Detail : String
  Reason : String
deriving DecidableEq, Repr

/-- Modelled from the spec: the constant `gardencorev1beta1.ConditionTrue`. -/
def ConditionTrue : String := "True"

/-- Modelled from the spec: the constant `gardencorev1beta1.ConditionFalse`. -/
def ConditionFalse : String := "False"

/-- A call that `Check` makes to one of its collaborators, recorded when the call
expression is executed, whether or not its receiver is nil. -/
inductive Event where
  | get (ctx : Context) (key : ObjectKey)
  | evaluate (mr : ManagedResource)
  | logError (logger : Option Logger) (err : Option GoError) (msg : String)
deriving DecidableEq, Repr

/-- How a call of `Check` ends: it returns its pair `(result, error)`, each possibly nil,
or it panics on a nil dereference. -/
inductive Outcome where
  | returned (result : Option SingleCheckResult) (err : Option GoError)
  | panicked
deriving DecidableEq, Repr

/-- A run of `Check`: the calls it made, in order, and how it ended. -/
structure CheckRun where
  events : List Event
  outcome : Outcome
deriving DecidableEq, Repr

/-- The keys of the `Get` calls among a list of events, in order. -/
def getKeys : List Event → List ObjectKey
  | [] => []
  | .get _ key :: es => key :: getKeys es
  | _ :: es => getKeys es

/-- The managed resources handed to the status evaluator among a list of events. -/
def evaluated : List Event → List ManagedResource
  | [] => []
  | .evaluate mr :: es => mr :: evaluated es
  | _ :: es => evaluated es

/-- Go's `strings.Contains`, on the characters of the two strings. -/
def Contains (s substr : String) : Prop := substr.data <:+: s.data

instance (s substr : String) : Decidable (Contains s substr) :=
  inferInstanceAs (Decidable (substr.data <:+: s.data))

/-! ## Operations on the struct -/

/-- The struct allocated by `CheckManagedResource`: only `managedResourceName` is set. -/
def CheckManagedResource (managedResourceName : String) : ManagedResourceHealthChecker :=
  { logger := none, seedClient := none, managedResourceName := managedResourceName }

/-- The assignment made by `InjectSeedClient`. -/
def ManagedResourceHealthChecker.InjectSeedClient (healthChecker : ManagedResourceHealthChecker)
    (seedClient : Option Client) : ManagedResourceHealthChecker :=
  { healthChecker with seedClient := seedClient }

/-- The assignment made by `SetLoggerSuffix`. -/
def ManagedResourceHealthChecker.SetLoggerSuffix (healthChecker : ManagedResourceHealthChecker)
    (provider extension : String) : ManagedResourceHealthChecker :=
  { healthChecker with
    logger := some (Log.WithName (provider ++ "-" ++ extension ++ "-healthcheck-managed-resource")) }

/-- The function `managedResourceIsHealthy`. -/
def managedResourceIsHealthy (checkMR : ManagedResource → Option GoError)
    (managedResource : ManagedResource) : Bool × Option String × Option GoError :=
  match checkMR managedResource with
  | some err =>
    let reason := "ManagedResourceUnhealthy"
    let err := Errorf ("managed resource " ++ managedResource.Name ++ " in namespace "
      ++ managedResource.Namespace ++ " is unhealthy: " ++ err.msg)
    (false, some reason, some err)
  | none => (true, none, none)

/-- The method `Check`, run on the struct its receiver points to.

The call `healthChecker.seedClient.Get` panics on a nil `seedClient`; each call
`healthChecker.logger.Error` panics on a nil `logger`; `err.Error()` and `*reason` panic on
a nil `err` or `reason`. -/
def ManagedResourceHealthChecker.Check (checkMR : ManagedResource → Option GoError)
    (healthChecker : ManagedResourceHealthChecker) (ctx : Context) (request : NamespacedName) :
    CheckRun :=
  let key : ObjectKey :=
    { Namespace := request.Namespace, Name := healthChecker.managedResourceName }
  match healthChecker.seedClient with
  | none => ⟨[.get ctx key], .panicked⟩ -- `Get` on the nil accessor
  | some seedClient =>
    match seedClient.Get ctx key with
    | .error err =>
      let err := Errorf ("check Managed Resource failed. Unable to retrieve managed resource \x27"
        ++ healthChecker.managedResourceName ++ "\x27 in namespace \x27" ++ request.Namespace
        ++ "\x27: " ++ err.msg)
      let events := [.get ctx key, .logError healthChecker.logger (some err) "Health check failed"]
      match healthChecker.logger with
      | none => ⟨events, .panicked⟩ -- `Error` on the nil logger
      | some _ => ⟨events, .returned none (some err)⟩
    | .ok mcmDeployment =>
      match managedResourceIsHealthy checkMR mcmDeployment with
      | (false, reason, err) =>
        let events := [.get ctx key, .evaluate mcmDeployment,
          .logError healthChecker.logger err "Health check failed"]
        match healthChecker.logger, err, reason with
        | some _, some e, some r =>
          ⟨events, .returned (some { Status := ConditionFalse, Detail := e.msg, Reason := r }) none⟩
        | _, _, _ => ⟨events, .panicked⟩
      | (true, _, _) =>
        ⟨[.get ctx key, .evaluate mcmDeployment],
          .returned (some { Status := ConditionTrue, Detail := "", Reason := "" }) none⟩

/-! ## Pointers

The methods have pointer receivers and `CheckManagedResource` and `DeepCopy` return
pointers to freshly allocated structs. -/

/-- An address of a `ManagedResourceHealthChecker`. -/
abbrev Ptr := Nat

/-- The allocated structs; the struct at address `p` is `cells[p]`. -/
structure Heap where
  cells : List ManagedResourceHealthChecker

/-- The struct a pointer points to, `none` for a pointer to nothing. -/
def Heap.load (h : Heap) (p : Ptr) : Option ManagedResourceHealthChecker := h.cells[p]?

/-- Allocation of a new struct: the heap after it and the new address. -/
def Heap.alloc (h : Heap) (v : ManagedResourceHealthChecker) : Heap × Ptr :=
  (⟨h.cells ++ [v]⟩, h.cells.length)

/-- Overwriting the struct at an address. -/
def Heap.store (h : Heap) (p : Ptr) (v : ManagedResourceHealthChecker) : Heap :=
  ⟨h.cells.set p v⟩

/-- The function `CheckManagedResource`: `&ManagedResourceHealthChecker{...}`. -/
def Heap.CheckManagedResource (h : Heap) (managedResourceName : String) : Heap × Ptr :=
  h.alloc (General.CheckManagedResource managedResourceName)

/-- The method `InjectSeedClient` on a pointer; `none` is the panic on a receiver that
points to nothing. -/
def Heap.InjectSeedClient (h : Heap) (healthChecker : Ptr) (seedClient : Option Client) :
    Option Heap :=
  (h.load healthChecker).map fun hc => h.store healthChecker (hc.InjectSeedClient seedClient)

/-- The method `SetLoggerSuffix` on a pointer. -/
def Heap.SetLoggerSuffix (h : Heap) (healthChecker : Ptr) (provider extension : String) :
    Option Heap :=
  (h.load healthChecker).map fun hc =>
    h.store healthChecker (hc.SetLoggerSuffix provider extension)

/-- The method `DeepCopy` on a pointer: `copy := *healthChecker; return &copy`. -/
def Heap.DeepCopy (h : Heap) (healthChecker : Ptr) : Option (Heap × Ptr) :=
  (h.load healthChecker).map fun hc =>
    let copy := hc
    h.alloc copy

/-- The method `Check` on a pointer: the heap after the call and the run. -/
def Heap.Check (checkMR : ManagedResource → Option GoError) (h : Heap) (healthChecker : Ptr)
    (ctx : Context) (request : NamespacedName) : Option (Heap × CheckRun) :=
  (h.load healthChecker).map fun hc => (h, hc.Check checkMR ctx request)

/-- A method call on a pointer. -/
inductive Call where
  | injectSeedClient (healthChecker : Ptr) (seedClient : Option Client)
  | setLoggerSuffix (healthChecker : Ptr) (provider extension : String)
  | deepCopy (healthChecker : Ptr)
  | check (healthChecker : Ptr) (ctx : Context) (request : NamespacedName)

/-- The heap after one call; a call that panics leaves the heap as it was. -/
def Heap.step (checkMR : ManagedResource → Option GoError) (h : Heap) : Call → Heap
  | .injectSeedClient p c => (h.InjectSeedClient p c).getD h
  | .setLoggerSuffix p provider extension => (h.SetLoggerSuffix p provider extension).getD h
  | .deepCopy p => ((h.DeepCopy p).map Prod.fst).getD h
  | .check p ctx request => ((h.Check checkMR p ctx request).map Prod.fst).getD h

/-- The heap after a sequence of calls. -/
def Heap.run (checkMR : ManagedResource → Option GoError) (h : Heap) (calls : List Call) : Heap :=
  calls.foldl (Heap.step checkMR) h

/-! ## Sample inputs -/

/-- A live context. -/
def liveCtx : Context := ⟨none⟩

/-- A cancelled context. -/
def cancelledCtx : Context := ⟨some ⟨"context canceled"⟩⟩

/-- A client reading from a fixed list of objects: it fails with the context's error on a
finished context and with a not-found error on a key that is not in the list. -/
def listClient (objs : List ManagedResource) : Client where
  Get ctx key :=
    match ctx.Err with
    | some e => .error e
    | none =>
      match objs.find? fun o => o.Namespace == key.Namespace && o.Name == key.Name with
      | some o => .ok o
      | none => .error ⟨"not found"⟩

/-- An evaluator that fails, with a fixed message, on a resource with a condition whose
status is not `True`. -/
def sampleCheckMR (mr : ManagedResource) : Option GoError :=
  if mr.Conditions.all fun c => c.Status == "True" then none
  else some ⟨"2 conditions unhealthy"⟩

/-- A managed resource with all conditions satisfied. -/
def healthyMR : ManagedResource :=
  { Name := "frontend-mr", Namespace := "ns1",
    Conditions := [⟨"ResourcesApplied", "True", ""⟩, ⟨"ResourcesHealthy", "True", ""⟩] }

/-- A managed resource with a failed condition. -/
def unhealthyMR : ManagedResource :=
  { Name := "frontend-mr", Namespace := "ns1",
    Conditions := [⟨"ResourcesApplied", "True", ""⟩,
      ⟨"ResourcesHealthy", "False", "deployment is not ready"⟩] }

/-- A unit for `frontend-mr` with the given accessor and no logger. -/
def unitNoLogger (c : Client) : ManagedResourceHealthChecker :=
  (CheckManagedResource "frontend-mr").InjectSeedClient (some c)

/-- A unit for `frontend-mr` with the given accessor and a logger. -/
def unitWith (c : Client) : ManagedResourceHealthChecker :=
  (unitNoLogger c).SetLoggerSuffix "packet" "worker"

/-- A healthy managed resource in `ns1` whose own name is `shoot-g`. -/
def shootNamedMR : ManagedResource :=
  { Name := "shoot-g", Namespace := "ns1",
    Conditions := [⟨"ResourcesApplied", "True", ""⟩, ⟨"ResourcesHealthy", "True", ""⟩] }

/-- A heap holding one unit, at address `0`. -/
def sampleHeap : Heap := ⟨[unitWith (listClient [healthyMR])]⟩

/-- A sequence of calls on the unit at address `0` and on its copies. -/
def sampleCalls : List Call :=
  [.injectSeedClient 0 (some (listClient [unhealthyMR])), .deepCopy 0,
    .setLoggerSuffix 1 "packet" "worker", .check 1 liveCtx ⟨"ns1", "shoot-j"⟩, .deepCopy 1,
    .injectSeedClient 2 none, .check 2 liveCtx ⟨"ns1", "shoot-j"⟩]

/-! ## The branches of `Check` -/

theorem check_of_nil_client (checkMR : ManagedResource → Option GoError)
    (u : ManagedResourceHealthChecker) (ctx : Context) (request : NamespacedName)
    (hc : u.seedClient = none) :
    u.Check checkMR ctx request =
      ⟨[.get ctx ⟨request.Namespace, u.managedResourceName⟩], .panicked⟩ := by
  simp [ManagedResourceHealthChecker.Check, hc]

theorem check_of_get_error (checkMR : ManagedResource → Option GoError)
    (u : ManagedResourceHealthChecker) (c : Client) (ctx : Context) (request : NamespacedName)
    (err : GoError) (hc : u.seedClient = some c)
    (hget : c.Get ctx ⟨request.Namespace, u.managedResourceName⟩ = .error err) :
    u.Check checkMR ctx request =
      ⟨[.get ctx ⟨request.Namespace, u.managedResourceName⟩,
        .logError u.logger (some (Errorf
          ("check Managed Resource failed. Unable to retrieve managed resource \x27"
            ++ u.managedResourceName ++ "\x27 in namespace \x27" ++ request.Namespace
            ++ "\x27: " ++ err.msg))) "Health check failed"],
        match u.logger with
        | none => .panicked
        | some _ => .returned none (some (Errorf
          ("check Managed Resource failed. Unable to retrieve managed resource \x27"
            ++ u.managedResourceName ++ "\x27 in namespace \x27" ++ request.Namespace
            ++ "\x27: " ++ err.msg)))⟩ := by
  simp only [ManagedResourceHealthChecker.Check, hc, hget]
  cases u.logger <;> rfl

theorem check_of_unhealthy (checkMR : ManagedResource → Option GoError)
    (u : ManagedResourceHealthChecker) (c : Client) (ctx : Context) (request : NamespacedName)
    (mr : ManagedResource) (e : GoError) (hc : u.seedClient = some c)
    (hget : c.Get ctx ⟨request.Namespace, u.managedResourceName⟩ = .ok mr)
    (hev : checkMR mr = some e) :
    u.Check checkMR ctx request =
      ⟨[.get ctx ⟨request.Namespace, u.managedResourceName⟩, .evaluate mr,
        .logError u.logger (some (Errorf ("managed resource " ++ mr.Name ++ " in namespace "
          ++ mr.Namespace ++ " is unhealthy: " ++ e.msg))) "Health check failed"],
        match u.logger with
        | none => .panicked
        | some _ => .returned (some
            { Status := "False"
              Detail := "managed resource " ++ mr.Name ++ " in namespace "
                ++ mr.Namespace ++ " is unhealthy: " ++ e.msg
              Reason := "ManagedResourceUnhealthy" }) none⟩ := by
  simp only [ManagedResourceHealthChecker.Check, hc, hget, managedResourceIsHealthy, hev]
  cases u.logger <;> rfl

theorem check_of_healthy (checkMR : ManagedResource → Option GoError)
    (u : ManagedResourceHealthChecker) (c : Client) (ctx : Context) (request : NamespacedName)
    (mr : ManagedResource) (hc : u.seedClient = some c)
    (hget : c.Get ctx ⟨request.Namespace, u.managedResourceName⟩ = .ok mr)
    (hev : checkMR mr = none) :
    u.Check checkMR ctx request =
      ⟨[.get ctx ⟨request.Namespace, u.managedResourceName⟩, .evaluate mr],
        .returned (some { Status := "True", Detail := "", Reason := "" }) none⟩ := by
  simp only [ManagedResourceHealthChecker.Check, hc, hget, managedResourceIsHealthy, hev]
  rfl

/-- A string that starts with a non-empty literal is not empty. -/
theorem append_ne_empty (s t : String) (hs : 0 < s.length) : s ++ t ≠ "" := by
  intro h
  have hl : (s ++ t).length = 0 := by rw [h]; rfl
  rw [String.length_append] at hl
  omega

/-! ## Fetch failure -/

/-- C1, as stated, fails: a unit with an injected accessor but no logger, whose `Get`
fails with a not-found error, panics at the logging call and returns nothing. -/
theorem fetch_error_without_logger_panics :
    (unitNoLogger (listClient [])).seedClient.isSome = true ∧
    (listClient []).Get liveCtx ⟨"ns1", "frontend-mr"⟩ = .error ⟨"not found"⟩ ∧
    ((unitNoLogger (listClient [])).Check sampleCheckMR liveCtx ⟨"ns1", "shoot-a"⟩).outcome
      = .panicked ∧
    ¬ ∃ e, ((unitNoLogger (listClient [])).Check sampleCheckMR liveCtx ⟨"ns1", "shoot-a"⟩).outcome
      = .returned none (some e) := by
  refine ⟨rfl, rfl, by decide, ?_⟩
  rintro ⟨e, he⟩
  have hp : ((unitNoLogger (listClient [])).Check sampleCheckMR liveCtx
      ⟨"ns1", "shoot-a"⟩).outcome = .panicked := by decide
  rw [hp] at he
  cases he

/-- C1, amended: for every unit with an injected accessor whose `Get` for the key
`(request.Namespace, managedResourceName)` returns an error, `Check` never returns a
result value and never consults the evaluator; when the unit also has a logger set, it
returns a nil result together with a non-nil error. -/
theorem check_fetch_error (checkMR : ManagedResource → Option GoError)
    (u : ManagedResourceHealthChecker) (c : Client) (ctx : Context) (request : NamespacedName)
    (err : GoError) (hc : u.seedClient = some c)
    (hget : c.Get ctx ⟨request.Namespace, u.managedResourceName⟩ = .error err) :
    (∀ l, u.logger = some l →
      ∃ e, (u.Check checkMR ctx request).outcome = .returned none (some e)) ∧
    (∀ r e, (u.Check checkMR ctx request).outcome ≠ .returned (some r) e) ∧
    evaluated (u.Check checkMR ctx request).events = [] := by
  rw [check_of_get_error checkMR u c ctx request err hc hget]
  refine ⟨?_, ?_, rfl⟩
  · intro l hl
    simp [hl]
  · intro r e
    cases u.logger <;> simp

/-- C1, amended, on a unit with a logger whose resource does not exist. -/
theorem check_fetch_error_witness :
    (unitWith (listClient [])).seedClient = some (listClient []) ∧
    (listClient []).Get liveCtx ⟨"ns1", "frontend-mr"⟩ = .error ⟨"not found"⟩ ∧
    (∃ e, ((unitWith (listClient [])).Check sampleCheckMR liveCtx ⟨"ns1", "shoot-a"⟩).outcome
      = .returned none (some e)) ∧
    (∀ r e, ((unitWith (listClient [])).Check sampleCheckMR liveCtx ⟨"ns1", "shoot-a"⟩).outcome
      ≠ .returned (some r) e) ∧
    evaluated ((unitWith (listClient [])).Check sampleCheckMR liveCtx ⟨"ns1", "shoot-a"⟩).events
      = [] :=
  have h := check_fetch_error sampleCheckMR (unitWith (listClient [])) (listClient []) liveCtx
    ⟨"ns1", "shoot-a"⟩ ⟨"not found"⟩ rfl rfl
  ⟨rfl, rfl, h.1 _ rfl, h.2.1, h.2.2⟩

/-! ## Unhealthy resource -/

/-- C2, as stated, fails: on a fetched resource that the evaluator rejects, a unit
without a logger panics at the logging call and returns no result. -/
theorem unhealthy_without_logger_panics :
    (listClient [unhealthyMR]).Get liveCtx ⟨"ns1", "frontend-mr"⟩ = .ok unhealthyMR ∧
    sampleCheckMR unhealthyMR = some ⟨"2 conditions unhealthy"⟩ ∧
    ((unitNoLogger (listClient [unhealthyMR])).Check sampleCheckMR liveCtx
      ⟨"ns1", "shoot-b"⟩).outcome = .panicked ∧
    ¬ ∃ r, ((unitNoLogger (listClient [unhealthyMR])).Check sampleCheckMR liveCtx
      ⟨"ns1", "shoot-b"⟩).outcome = .returned (some r) none := by
  refine ⟨by decide, by decide, by decide, ?_⟩
  rintro ⟨r, hr⟩
  have hp : ((unitNoLogger (listClient [unhealthyMR])).Check sampleCheckMR liveCtx
      ⟨"ns1", "shoot-b"⟩).outcome = .panicked := by decide
  rw [hp] at hr
  cases hr

/-- C2, amended: for every unit with a logger set and every successfully fetched managed
resource for which the status evaluator reports an error, `Check` returns a nil error and
a non-nil result with `Status = "False"`, a non-empty `Detail`, and `Reason` exactly
`"ManagedResourceUnhealthy"`. -/
theorem check_unhealthy (checkMR : ManagedResource → Option GoError)
    (u : ManagedResourceHealthChecker) (c : Client) (l : Logger) (ctx : Context)
    (request : NamespacedName) (mr : ManagedResource) (e : GoError)
    (hc : u.seedClient = some c) (hl : u.logger = some l)
    (hget : c.Get ctx ⟨request.Namespace, u.managedResourceName⟩ = .ok mr)
    (hev : checkMR mr = some e) :
    ∃ r, (u.Check checkMR ctx request).outcome = .returned (some r) none ∧
      r.Status = "False" ∧ r.Detail ≠ "" ∧ r.Reason = "ManagedResourceUnhealthy" := by
  rw [check_of_unhealthy checkMR u c ctx request mr e hc hget hev]
  refine ⟨⟨"False", "managed resource " ++ mr.Name ++ " in namespace "
    ++ mr.Namespace ++ " is unhealthy: " ++ e.msg, "ManagedResourceUnhealthy"⟩,
    by simp only [hl], rfl, ?_, rfl⟩
  simp only [String.append_assoc]
  exact append_ne_empty _ _ (by decide)

/-- C2, amended, on a unit with a logger and a resource with a failed condition. -/
theorem check_unhealthy_witness :
    (unitWith (listClient [unhealthyMR])).seedClient = some (listClient [unhealthyMR]) ∧
    (unitWith (listClient [unhealthyMR])).logger
      = some ⟨"packet-worker-healthcheck-managed-resource"⟩ ∧
    (listClient [unhealthyMR]).Get liveCtx ⟨"ns1", "frontend-mr"⟩ = .ok unhealthyMR ∧
    sampleCheckMR unhealthyMR = some ⟨"2 conditions unhealthy"⟩ ∧
    ∃ r, ((unitWith (listClient [unhealthyMR])).Check sampleCheckMR liveCtx
        ⟨"ns1", "shoot-b"⟩).outcome = .returned (some r) none ∧
      r.Status = "False" ∧ r.Detail ≠ "" ∧ r.Reason = "ManagedResourceUnhealthy" :=
  ⟨rfl, by decide, by decide, by decide,
    check_unhealthy sampleCheckMR (unitWith (listClient [unhealthyMR]))
      (listClient [unhealthyMR]) ⟨"packet-worker-healthcheck-managed-resource"⟩ liveCtx
      ⟨"ns1", "shoot-b"⟩ unhealthyMR ⟨"2 conditions unhealthy"⟩ rfl (by decide) (by decide)
      (by decide)⟩

/-! ## Healthy resource -/

/-- C3: for every successfully fetched managed resource for which the status evaluator
reports no error, `Check` returns a nil error and a non-nil result with `Status = "True"`,
empty `Detail` and empty `Reason`. -/
theorem check_healthy (checkMR : ManagedResource → Option GoError)
    (u : ManagedResourceHealthChecker) (c : Client) (ctx : Context) (request : NamespacedName)
    (mr : ManagedResource) (hc : u.seedClient = some c)
    (hget : c.Get ctx ⟨request.Namespace, u.managedResourceName⟩ = .ok mr)
    (hev : checkMR mr = none) :
    ∃ r, (u.Check checkMR ctx request).outcome = .returned (some r) none ∧
      r.Status = "True" ∧ r.Detail = "" ∧ r.Reason = "" := by
  rw [check_of_healthy checkMR u c ctx request mr hc hget hev]
  exact ⟨_, rfl, rfl, rfl, rfl⟩

/-- C3 on scenario A: `frontend-mr` in `ns1` with all conditions satisfied. -/
theorem check_healthy_witness :
    (unitNoLogger (listClient [healthyMR])).seedClient = some (listClient [healthyMR]) ∧
    (listClient [healthyMR]).Get liveCtx ⟨"ns1", "frontend-mr"⟩ = .ok healthyMR ∧
    sampleCheckMR healthyMR = none ∧
    ∃ r, ((unitNoLogger (listClient [healthyMR])).Check sampleCheckMR liveCtx
        ⟨"ns1", "shoot-c"⟩).outcome = .returned (some r) none ∧
      r.Status = "True" ∧ r.Detail = "" ∧ r.Reason = "" :=
  ⟨rfl, by decide, by decide,
    check_healthy sampleCheckMR (unitNoLogger (listClient [healthyMR]))
      (listClient [healthyMR]) liveCtx ⟨"ns1", "shoot-c"⟩ healthyMR rfl (by decide)
      (by decide)⟩

/-! ## Check before injection -/

/-- C4, as stated, fails: on the unit returned by `CheckManagedResource "frontend-mr"`,
with no accessor injected, `Check` panics on the nil accessor; it returns no error. -/
theorem check_before_inject_no_error :
    ((CheckManagedResource "frontend-mr").Check sampleCheckMR liveCtx
      ⟨"ns1", "shoot-d"⟩).outcome = .panicked ∧
    ¬ ∃ e, ((CheckManagedResource "frontend-mr").Check sampleCheckMR liveCtx
      ⟨"ns1", "shoot-d"⟩).outcome = .returned none (some e) := by
  refine ⟨by decide, ?_⟩
  rintro ⟨e, he⟩
  have hp : ((CheckManagedResource "frontend-mr").Check sampleCheckMR liveCtx
      ⟨"ns1", "shoot-d"⟩).outcome = .panicked := by decide
  rw [hp] at he
  cases he

/-- C4, amended: for a unit on which `InjectSeedClient` has never been called (accessor
is the zero value), and in particular for the unit returned by `CheckManagedResource`,
`Check` with any context and request deterministically panics at its `Get` call on the
nil accessor: it returns neither a result nor an error, consults no evaluator and logs
nothing. -/
theorem check_before_inject_panics (checkMR : ManagedResource → Option GoError)
    (u : ManagedResourceHealthChecker) (ctx : Context) (request : NamespacedName)
    (hc : u.seedClient = none) :
    (u.Check checkMR ctx request).outcome = .panicked ∧
    (∀ r e, (u.Check checkMR ctx request).outcome ≠ .returned r e) ∧
    (u.Check checkMR ctx request).events
      = [.get ctx ⟨request.Namespace, u.managedResourceName⟩] := by
  rw [check_of_nil_client checkMR u ctx request hc]
  refine ⟨rfl, ?_, rfl⟩
  intro r e h
  cases h

/-- C4, amended, on the unit returned by `CheckManagedResource "frontend-mr"` and a
cancelled context. -/
theorem check_before_inject_panics_witness :
    (CheckManagedResource "frontend-mr").seedClient = none ∧
    ((CheckManagedResource "frontend-mr").Check sampleCheckMR cancelledCtx
      ⟨"ns1", "shoot-d"⟩).outcome = .panicked ∧
    (∀ r e, ((CheckManagedResource "frontend-mr").Check sampleCheckMR cancelledCtx
      ⟨"ns1", "shoot-d"⟩).outcome ≠ .returned r e) ∧
    ((CheckManagedResource "frontend-mr").Check sampleCheckMR cancelledCtx
      ⟨"ns1", "shoot-d"⟩).events = [.get cancelledCtx ⟨"ns1", "frontend-mr"⟩] :=
  ⟨rfl, check_before_inject_panics sampleCheckMR (CheckManagedResource "frontend-mr")
    cancelledCtx ⟨"ns1", "shoot-d"⟩ rfl⟩

/-! ## The text of the fetch error -/

set_option maxRecDepth 100000 in
/-- C5, as stated, fails on its own witness: for name `frontend-mr`, namespace `ns1` and
a resource that is not found, the error returned by `Check` does not contain
`unable to retrieve managed resource`; the message has a capital `U`. -/
theorem fetch_error_text_lowercase_absent :
    (listClient []).Get liveCtx ⟨"ns1", "frontend-mr"⟩ = .error ⟨"not found"⟩ ∧
    ∃ e, ((unitWith (listClient [])).Check sampleCheckMR liveCtx ⟨"ns1", "shoot-e"⟩).outcome
        = .returned none (some e) ∧
      e.msg = "check Managed Resource failed. Unable to retrieve managed resource \x27frontend-mr\x27 in namespace \x27ns1\x27: not found" ∧
      ¬ Contains e.msg "unable to retrieve managed resource" :=
  ⟨by decide, ⟨"check Managed Resource failed. Unable to retrieve managed resource \x27frontend-mr\x27 in namespace \x27ns1\x27: not found"⟩,
    by decide, by decide, by decide⟩

/-- C5, amended: for every resource name, namespace and underlying fetch error, when the
accessor's `Get` fails on a unit with a logger set, the error returned by `Check` has the
message `check Managed Resource failed. Unable to retrieve managed resource '<name>' in
namespace '<namespace>': <fetch error>`, which contains the substring
`Unable to retrieve managed resource`. -/
theorem fetch_error_text (checkMR : ManagedResource → Option GoError)
    (u : ManagedResourceHealthChecker) (c : Client) (l : Logger) (ctx : Context)
    (request : NamespacedName) (err : GoError)
    (hc : u.seedClient = some c) (hl : u.logger = some l)
    (hget : c.Get ctx ⟨request.Namespace, u.managedResourceName⟩ = .error err) :
    ∃ e, (u.Check checkMR ctx request).outcome = .returned none (some e) ∧
      e.msg = "check Managed Resource failed. Unable to retrieve managed resource \x27"
        ++ u.managedResourceName ++ "\x27 in namespace \x27" ++ request.Namespace
        ++ "\x27: " ++ err.msg ∧
      Contains e.msg "Unable to retrieve managed resource" := by
  rw [check_of_get_error checkMR u c ctx request err hc hget]
  refine ⟨Errorf ("check Managed Resource failed. Unable to retrieve managed resource \x27"
    ++ u.managedResourceName ++ "\x27 in namespace \x27" ++ request.Namespace
    ++ "\x27: " ++ err.msg), by simp only [hl], rfl, ?_⟩
  refine ⟨"check Managed Resource failed. ".data,
    (" \x27" ++ u.managedResourceName ++ "\x27 in namespace \x27" ++ request.Namespace
      ++ "\x27: " ++ err.msg).data, ?_⟩
  simp [Errorf, String.data_append]

/-- C5, amended, on scenario C: `frontend-mr` does not exist in `ns1`. -/
theorem fetch_error_text_witness :
    (unitWith (listClient [])).seedClient = some (listClient []) ∧
    (unitWith (listClient [])).logger = some ⟨"packet-worker-healthcheck-managed-resource"⟩ ∧
    (listClient []).Get liveCtx ⟨"ns1", "frontend-mr"⟩ = .error ⟨"not found"⟩ ∧
    ∃ e, ((unitWith (listClient [])).Check sampleCheckMR liveCtx ⟨"ns1", "shoot-e"⟩).outcome
        = .returned none (some e) ∧
      e.msg = "check Managed Resource failed. Unable to retrieve managed resource \x27"
        ++ "frontend-mr" ++ "\x27 in namespace \x27" ++ "ns1" ++ "\x27: " ++ "not found" ∧
      Contains e.msg "Unable to retrieve managed resource" :=
  ⟨rfl, by decide, by decide,
    fetch_error_text sampleCheckMR (unitWith (listClient [])) (listClient [])
      ⟨"packet-worker-healthcheck-managed-resource"⟩ liveCtx ⟨"ns1", "shoot-e"⟩ ⟨"not found"⟩
      rfl (by decide) (by decide)⟩

/-! ## The detail of an unhealthy result -/

/-- C6, as stated, fails: on a fetched resource with name `frontend-mr` and namespace
`ns1` on which the evaluator fails with `2 conditions unhealthy`, a unit without a logger
returns no result, so no `Detail` either. -/
theorem unhealthy_detail_without_logger_absent :
    (listClient [unhealthyMR, healthyMR]).Get liveCtx ⟨"ns1", "frontend-mr"⟩
      = .ok unhealthyMR ∧
    sampleCheckMR unhealthyMR = some ⟨"2 conditions unhealthy"⟩ ∧
    ¬ ∃ r e, ((unitNoLogger (listClient [unhealthyMR, healthyMR])).Check sampleCheckMR
        liveCtx ⟨"ns1", "shoot-f"⟩).outcome = .returned (some r) e ∧
      r.Detail
        = "managed resource frontend-mr in namespace ns1 is unhealthy: 2 conditions unhealthy" := by
  refine ⟨by decide, by decide, ?_⟩
  rintro ⟨r, e, hr, -⟩
  have hp : ((unitNoLogger (listClient [unhealthyMR, healthyMR])).Check sampleCheckMR liveCtx
      ⟨"ns1", "shoot-f"⟩).outcome = .panicked := by decide
  rw [hp] at hr
  cases hr

/-- C6, amended: for every unit with a logger set and every fetched managed resource
with name `n` and namespace `ns` on which the status evaluator fails with message `m`,
`Check` returns a result whose `Detail` is exactly
`"managed resource " ++ n ++ " in namespace " ++ ns ++ " is unhealthy: " ++ m`. -/
theorem unhealthy_detail (checkMR : ManagedResource → Option GoError)
    (u : ManagedResourceHealthChecker) (c : Client) (l : Logger) (ctx : Context)
    (request : NamespacedName) (mr : ManagedResource) (e : GoError)
    (hc : u.seedClient = some c) (hl : u.logger = some l)
    (hget : c.Get ctx ⟨request.Namespace, u.managedResourceName⟩ = .ok mr)
    (hev : checkMR mr = some e) :
    ∃ r, (u.Check checkMR ctx request).outcome = .returned (some r) none ∧
      r.Detail = "managed resource " ++ mr.Name ++ " in namespace " ++ mr.Namespace
        ++ " is unhealthy: " ++ e.msg := by
  rw [check_of_unhealthy checkMR u c ctx request mr e hc hget hev]
  exact ⟨⟨"False", "managed resource " ++ mr.Name ++ " in namespace "
    ++ mr.Namespace ++ " is unhealthy: " ++ e.msg, "ManagedResourceUnhealthy"⟩,
    by simp only [hl], rfl⟩

/-- C6, amended, on scenario B: `frontend-mr` in `ns1` with a failed condition and the
evaluator message `2 conditions unhealthy`. -/
theorem unhealthy_detail_witness :
    (unitWith (listClient [unhealthyMR])).seedClient = some (listClient [unhealthyMR]) ∧
    (unitWith (listClient [unhealthyMR])).logger
      = some ⟨"packet-worker-healthcheck-managed-resource"⟩ ∧
    (listClient [unhealthyMR]).Get liveCtx ⟨"ns1", "frontend-mr"⟩ = .ok unhealthyMR ∧
    sampleCheckMR unhealthyMR = some ⟨"2 conditions unhealthy"⟩ ∧
    ∃ r, ((unitWith (listClient [unhealthyMR])).Check sampleCheckMR liveCtx
        ⟨"ns1", "shoot-f"⟩).outcome = .returned (some r) none ∧
      r.Detail = "managed resource " ++ "frontend-mr" ++ " in namespace " ++ "ns1"
        ++ " is unhealthy: " ++ "2 conditions unhealthy" :=
  ⟨rfl, by decide, by decide, by decide,
    unhealthy_detail sampleCheckMR (unitWith (listClient [unhealthyMR]))
      (listClient [unhealthyMR]) ⟨"packet-worker-healthcheck-managed-resource"⟩ liveCtx
      ⟨"ns1", "shoot-f"⟩ unhealthyMR ⟨"2 conditions unhealthy"⟩ rfl (by decide) (by decide)
      (by decide)⟩

/-! ## The heap -/

theorem load_lt (h : Heap) (p : Ptr) (u : ManagedResourceHealthChecker)
    (hp : h.load p = some u) : p < h.cells.length := by
  unfold Heap.load at hp
  obtain ⟨hlt, -⟩ := List.getElem?_eq_some.mp hp
  exact hlt

theorem load_alloc_new (h : Heap) (v : ManagedResourceHealthChecker) :
    (h.alloc v).1.load (h.alloc v).2 = some v := by
  simp [Heap.load, Heap.alloc]

theorem load_alloc_old (h : Heap) (v u : ManagedResourceHealthChecker) (p : Ptr)
    (hp : h.load p = some u) : (h.alloc v).1.load p = some u := by
  have hlt := load_lt h p u hp
  unfold Heap.load at hp ⊢
  simp only [Heap.alloc]
  rw [List.getElem?_append_left hlt]
  exact hp

theorem load_store_same (h : Heap) (v u : ManagedResourceHealthChecker) (p : Ptr)
    (hp : h.load p = some u) : (h.store p v).load p = some v := by
  have hlt := load_lt h p u hp
  simp [Heap.load, Heap.store, hlt]

theorem load_store_other (h : Heap) (v : ManagedResourceHealthChecker) (p q : Ptr)
    (hpq : p ≠ q) : (h.store p v).load q = h.load q := by
  simp [Heap.load, Heap.store, List.getElem?_set_ne hpq]

/-! ## DeepCopy -/

/-- C7: for every unit `u` at an address `p`, `DeepCopy` returns a new address `q`
different from `p` that holds a unit equal to `u` in all fields, and leaves `u` as it
was; `InjectSeedClient` or `SetLoggerSuffix` applied to the copy change the copy and leave
every field of `u` unchanged, and applied to `u` they change `u` and leave every field of
the copy unchanged. -/
theorem deepCopy_independent (h : Heap) (p : Ptr) (u : ManagedResourceHealthChecker)
    (hp : h.load p = some u) :
    ∃ h1 q, h.DeepCopy p = some (h1, q) ∧ q ≠ p ∧ h1.load q = some u ∧ h1.load p = some u ∧
      (∀ c, ∃ h2, h1.InjectSeedClient q c = some h2 ∧
        h2.load p = some u ∧ h2.load q = some (u.InjectSeedClient c)) ∧
      (∀ provider extension, ∃ h2, h1.SetLoggerSuffix q provider extension = some h2 ∧
        h2.load p = some u ∧ h2.load q = some (u.SetLoggerSuffix provider extension)) ∧
      (∀ c, ∃ h2, h1.InjectSeedClient p c = some h2 ∧
        h2.load q = some u ∧ h2.load p = some (u.InjectSeedClient c)) ∧
      (∀ provider extension, ∃ h2, h1.SetLoggerSuffix p provider extension = some h2 ∧
        h2.load q = some u ∧ h2.load p = some (u.SetLoggerSuffix provider extension)) := by
  have hlt := load_lt h p u hp
  have hq : (h.alloc u).1.load (h.alloc u).2 = some u := load_alloc_new h u
  have hp1 : (h.alloc u).1.load p = some u := load_alloc_old h u u p hp
  have hne : (h.alloc u).2 ≠ p := by
    show h.cells.length ≠ p
    exact Nat.ne_of_gt hlt
  refine ⟨(h.alloc u).1, (h.alloc u).2, by simp [Heap.DeepCopy, hp], hne, hq, hp1, ?_, ?_, ?_, ?_⟩
  · intro c
    refine ⟨(h.alloc u).1.store (h.alloc u).2 (u.InjectSeedClient c),
      by simp only [Heap.InjectSeedClient, hq, Option.map_some'], ?_, ?_⟩
    · rw [load_store_other _ _ _ _ hne]
      exact hp1
    · exact load_store_same _ _ _ _ hq
  · intro provider extension
    refine ⟨(h.alloc u).1.store (h.alloc u).2 (u.SetLoggerSuffix provider extension),
      by simp only [Heap.SetLoggerSuffix, hq, Option.map_some'], ?_, ?_⟩
    · rw [load_store_other _ _ _ _ hne]
      exact hp1
    · exact load_store_same _ _ _ _ hq
  · intro c
    refine ⟨(h.alloc u).1.store p (u.InjectSeedClient c),
      by simp only [Heap.InjectSeedClient, hp1, Option.map_some'], ?_, ?_⟩
    · rw [load_store_other _ _ _ _ (Ne.symm hne)]
      exact hq
    · exact load_store_same _ _ _ _ hp1
  · intro provider extension
    refine ⟨(h.alloc u).1.store p (u.SetLoggerSuffix provider extension),
      by simp only [Heap.SetLoggerSuffix, hp1, Option.map_some'], ?_, ?_⟩
    · rw [load_store_other _ _ _ _ (Ne.symm hne)]
      exact hq
    · exact load_store_same _ _ _ _ hp1

/-- C7 on a heap that holds one unit. -/
theorem deepCopy_independent_witness :
    sampleHeap.load 0 = some (unitWith (listClient [healthyMR])) ∧
    ∃ h1 q, sampleHeap.DeepCopy 0 = some (h1, q) ∧ q ≠ 0 ∧
      h1.load q = some (unitWith (listClient [healthyMR])) ∧
      h1.load 0 = some (unitWith (listClient [healthyMR])) ∧
      (∀ c, ∃ h2, h1.InjectSeedClient q c = some h2 ∧
        h2.load 0 = some (unitWith (listClient [healthyMR])) ∧
        h2.load q = some ((unitWith (listClient [healthyMR])).InjectSeedClient c)) ∧
      (∀ provider extension, ∃ h2, h1.SetLoggerSuffix q provider extension = some h2 ∧
        h2.load 0 = some (unitWith (listClient [healthyMR])) ∧
        h2.load q
          = some ((unitWith (listClient [healthyMR])).SetLoggerSuffix provider extension)) ∧
      (∀ c, ∃ h2, h1.InjectSeedClient 0 c = some h2 ∧
        h2.load q = some (unitWith (listClient [healthyMR])) ∧
        h2.load 0 = some ((unitWith (listClient [healthyMR])).InjectSeedClient c)) ∧
      (∀ provider extension, ∃ h2, h1.SetLoggerSuffix 0 provider extension = some h2 ∧
        h2.load q = some (unitWith (listClient [healthyMR])) ∧
        h2.load 0
          = some ((unitWith (listClient [healthyMR])).SetLoggerSuffix provider extension)) :=
  ⟨rfl, deepCopy_independent sampleHeap 0 (unitWith (listClient [healthyMR])) rfl⟩

/-! ## The key of the fetch -/

theorem getKeys_check (checkMR : ManagedResource → Option GoError)
    (u : ManagedResourceHealthChecker) (ctx : Context) (request : NamespacedName) :
    getKeys (u.Check checkMR ctx request).events
      = [⟨request.Namespace, u.managedResourceName⟩] := by
  cases hc : u.seedClient with
  | none => rw [check_of_nil_client checkMR u ctx request hc]; rfl
  | some c =>
    cases hget : c.Get ctx ⟨request.Namespace, u.managedResourceName⟩ with
    | error err => rw [check_of_get_error checkMR u c ctx request err hc hget]; rfl
    | ok mr =>
      cases hev : checkMR mr with
      | none => rw [check_of_healthy checkMR u c ctx request mr hc hget hev]; rfl
      | some e => rw [check_of_unhealthy checkMR u c ctx request mr e hc hget hev]; rfl

theorem check_congr_namespace (checkMR : ManagedResource → Option GoError)
    (u : ManagedResourceHealthChecker) (ctx : Context) (r1 r2 : NamespacedName)
    (hns : r1.Namespace = r2.Namespace) :
    u.Check checkMR ctx r1 = u.Check checkMR ctx r2 := by
  simp only [ManagedResourceHealthChecker.Check, hns]

theorem check_congr_client (checkMR : ManagedResource → Option GoError)
    (u : ManagedResourceHealthChecker) (c c2 : Client) (ctx : Context)
    (request : NamespacedName) (hc : u.seedClient = some c)
    (hagree : c2.Get ctx ⟨request.Namespace, u.managedResourceName⟩
      = c.Get ctx ⟨request.Namespace, u.managedResourceName⟩) :
    (u.InjectSeedClient (some c2)).Check checkMR ctx request = u.Check checkMR ctx request := by
  simp only [ManagedResourceHealthChecker.Check,
    ManagedResourceHealthChecker.InjectSeedClient, hc, hagree]

theorem evaluated_of_get_ok (checkMR : ManagedResource → Option GoError)
    (u : ManagedResourceHealthChecker) (c : Client) (ctx : Context) (request : NamespacedName)
    (mr : ManagedResource) (hc : u.seedClient = some c)
    (hget : c.Get ctx ⟨request.Namespace, u.managedResourceName⟩ = .ok mr) :
    evaluated (u.Check checkMR ctx request).events = [mr] := by
  cases hev : checkMR mr with
  | none => rw [check_of_healthy checkMR u c ctx request mr hc hget hev]; rfl
  | some e => rw [check_of_unhealthy checkMR u c ctx request mr e hc hget hev]; rfl

theorem returned_of_logger (checkMR : ManagedResource → Option GoError)
    (u : ManagedResourceHealthChecker) (c : Client) (l : Logger) (ctx : Context)
    (request : NamespacedName) (hc : u.seedClient = some c) (hl : u.logger = some l) :
    ∃ r e, (u.Check checkMR ctx request).outcome = .returned r e := by
  cases hget : c.Get ctx ⟨request.Namespace, u.managedResourceName⟩ with
  | error err =>
    rw [check_of_get_error checkMR u c ctx request err hc hget]
    simp only [hl]
    exact ⟨_, _, rfl⟩
  | ok mr =>
    cases hev : checkMR mr with
    | none =>
      rw [check_of_healthy checkMR u c ctx request mr hc hget hev]
      exact ⟨_, _, rfl⟩
    | some e =>
      rw [check_of_unhealthy checkMR u c ctx request mr e hc hget hev]
      simp only [hl]
      exact ⟨_, _, rfl⟩

/-- C8, as stated, fails: on a unit with no accessor, and two requests in `ns1` with
different names, the `Get` call of `Check` has no accessor to receive it; `Check` panics
for both requests and returns no outcome for either. -/
theorem check_without_accessor_fetches_nothing :
    ((CheckManagedResource "frontend-mr").SetLoggerSuffix "packet" "worker").seedClient.isNone
      = true ∧
    (⟨"ns1", "shoot-k"⟩ : NamespacedName).Namespace
      = (⟨"ns1", "shoot-l"⟩ : NamespacedName).Namespace ∧
    (⟨"ns1", "shoot-k"⟩ : NamespacedName).Name ≠ (⟨"ns1", "shoot-l"⟩ : NamespacedName).Name ∧
    (((CheckManagedResource "frontend-mr").SetLoggerSuffix "packet" "worker").Check
      sampleCheckMR liveCtx ⟨"ns1", "shoot-k"⟩).outcome = .panicked ∧
    (((CheckManagedResource "frontend-mr").SetLoggerSuffix "packet" "worker").Check
      sampleCheckMR liveCtx ⟨"ns1", "shoot-l"⟩).outcome = .panicked ∧
    ¬ ∃ r e, (((CheckManagedResource "frontend-mr").SetLoggerSuffix "packet" "worker").Check
      sampleCheckMR liveCtx ⟨"ns1", "shoot-k"⟩).outcome = .returned r e := by
  refine ⟨rfl, rfl, by decide, by decide, by decide, ?_⟩
  rintro ⟨r, e, h⟩
  have hp : (((CheckManagedResource "frontend-mr").SetLoggerSuffix "packet" "worker").Check
      sampleCheckMR liveCtx ⟨"ns1", "shoot-k"⟩).outcome = .panicked := by decide
  rw [hp] at h
  cases h

/-- C8, amended: for every context, every unit with an injected accessor and every two
requests that have the same `Namespace` (whatever their `Name`s), `Check` issues exactly
one `Get`, with the key `(request.Namespace, managedResourceName)`; the run depends on the
accessor only through its answer at that key (another accessor with the same answer there
gives the same run); the resource handed to the evaluator is the one `Get` returned at
that key, and when `Get` fails at that key nothing is evaluated and no result is returned;
the whole run (result and error, or the panic at the logging call of a unit without a
logger) is the same for both requests; and a unit that also has a logger returns. -/
theorem check_fetches_fixed_name (checkMR : ManagedResource → Option GoError)
    (u : ManagedResourceHealthChecker) (c : Client) (ctx : Context) (r1 r2 : NamespacedName)
    (hc : u.seedClient = some c) (hns : r1.Namespace = r2.Namespace) :
    getKeys (u.Check checkMR ctx r1).events = [⟨r1.Namespace, u.managedResourceName⟩] ∧
    getKeys (u.Check checkMR ctx r2).events = [⟨r1.Namespace, u.managedResourceName⟩] ∧
    (∀ c2 : Client, c2.Get ctx ⟨r1.Namespace, u.managedResourceName⟩
        = c.Get ctx ⟨r1.Namespace, u.managedResourceName⟩ →
      (u.InjectSeedClient (some c2)).Check checkMR ctx r1 = u.Check checkMR ctx r1 ∧
      (u.InjectSeedClient (some c2)).Check checkMR ctx r2 = u.Check checkMR ctx r2) ∧
    (∀ mr, c.Get ctx ⟨r1.Namespace, u.managedResourceName⟩ = .ok mr →
      evaluated (u.Check checkMR ctx r1).events = [mr] ∧
      evaluated (u.Check checkMR ctx r2).events = [mr]) ∧
    (∀ err, c.Get ctx ⟨r1.Namespace, u.managedResourceName⟩ = .error err →
      evaluated (u.Check checkMR ctx r1).events = [] ∧
      ∀ r e, (u.Check checkMR ctx r1).outcome ≠ .returned (some r) e) ∧
    u.Check checkMR ctx r1 = u.Check checkMR ctx r2 ∧
    (u.Check checkMR ctx r1).outcome = (u.Check checkMR ctx r2).outcome ∧
    (∀ l, u.logger = some l → ∃ r e, (u.Check checkMR ctx r1).outcome = .returned r e ∧
      (u.Check checkMR ctx r2).outcome = .returned r e) := by
  have h := check_congr_namespace checkMR u ctx r1 r2 hns
  refine ⟨getKeys_check checkMR u ctx r1, ?_, ?_, ?_, ?_, h, by rw [h], ?_⟩
  · rw [← h]
    exact getKeys_check checkMR u ctx r1
  · intro c2 hagree
    have h1 := check_congr_client checkMR u c c2 ctx r1 hc hagree
    refine ⟨h1, ?_⟩
    rw [← h, ← h1]
    exact (check_congr_namespace checkMR _ ctx r1 r2 hns).symm
  · intro mr hget
    have h1 := evaluated_of_get_ok checkMR u c ctx r1 mr hc hget
    refine ⟨h1, ?_⟩
    rw [← h]
    exact h1
  · intro err hget
    rw [check_of_get_error checkMR u c ctx r1 err hc hget]
    refine ⟨rfl, ?_⟩
    intro r e
    cases u.logger <;> simp
  · intro l hl
    obtain ⟨r, e, hre⟩ := returned_of_logger checkMR u c l ctx r1 hc hl
    refine ⟨r, e, hre, ?_⟩
    rw [← h]
    exact hre

/-- C8, amended, on an accessor that holds both the unhealthy `frontend-mr` and a healthy
resource whose own name is the request name `shoot-g`: for the requests `shoot-g` and
`frontend-mr-other` in `ns1` the resource fetched and evaluated is `frontend-mr`. -/
theorem check_fetches_fixed_name_witness :
    (unitWith (listClient [shootNamedMR, unhealthyMR])).seedClient
      = some (listClient [shootNamedMR, unhealthyMR]) ∧
    (⟨"ns1", "shoot-g"⟩ : NamespacedName).Namespace
      = (⟨"ns1", "frontend-mr-other"⟩ : NamespacedName).Namespace ∧
    (⟨"ns1", "shoot-g"⟩ : NamespacedName).Name
      ≠ (⟨"ns1", "frontend-mr-other"⟩ : NamespacedName).Name ∧
    (listClient [shootNamedMR, unhealthyMR]).Get liveCtx ⟨"ns1", "shoot-g"⟩
      = .ok shootNamedMR ∧
    (listClient [shootNamedMR, unhealthyMR]).Get liveCtx ⟨"ns1", "frontend-mr"⟩
      = .ok unhealthyMR ∧
    getKeys ((unitWith (listClient [shootNamedMR, unhealthyMR])).Check sampleCheckMR liveCtx
      ⟨"ns1", "shoot-g"⟩).events = [⟨"ns1", "frontend-mr"⟩] ∧
    getKeys ((unitWith (listClient [shootNamedMR, unhealthyMR])).Check sampleCheckMR liveCtx
      ⟨"ns1", "frontend-mr-other"⟩).events = [⟨"ns1", "frontend-mr"⟩] ∧
    ((unitWith (listClient [shootNamedMR, unhealthyMR])).InjectSeedClient
        (some (listClient [unhealthyMR]))).Check sampleCheckMR liveCtx ⟨"ns1", "shoot-g"⟩
      = (unitWith (listClient [shootNamedMR, unhealthyMR])).Check sampleCheckMR liveCtx
        ⟨"ns1", "shoot-g"⟩ ∧
    evaluated ((unitWith (listClient [shootNamedMR, unhealthyMR])).Check sampleCheckMR liveCtx
      ⟨"ns1", "shoot-g"⟩).events = [unhealthyMR] ∧
    evaluated ((unitWith (listClient [shootNamedMR, unhealthyMR])).Check sampleCheckMR liveCtx
      ⟨"ns1", "frontend-mr-other"⟩).events = [unhealthyMR] ∧
    (unitWith (listClient [shootNamedMR, unhealthyMR])).Check sampleCheckMR liveCtx
        ⟨"ns1", "shoot-g"⟩
      = (unitWith (listClient [shootNamedMR, unhealthyMR])).Check sampleCheckMR liveCtx
        ⟨"ns1", "frontend-mr-other"⟩ ∧
    ∃ r e, ((unitWith (listClient [shootNamedMR, unhealthyMR])).Check sampleCheckMR liveCtx
        ⟨"ns1", "shoot-g"⟩).outcome = .returned r e ∧
      ((unitWith (listClient [shootNamedMR, unhealthyMR])).Check sampleCheckMR liveCtx
        ⟨"ns1", "frontend-mr-other"⟩).outcome = .returned r e :=
  have h := check_fetches_fixed_name sampleCheckMR
    (unitWith (listClient [shootNamedMR, unhealthyMR])) (listClient [shootNamedMR, unhealthyMR])
    liveCtx ⟨"ns1", "shoot-g"⟩ ⟨"ns1", "frontend-mr-other"⟩ rfl rfl
  ⟨rfl, rfl, by decide, by decide, by decide, h.1, h.2.1,
    (h.2.2.1 (listClient [unhealthyMR]) (by decide)).1,
    (h.2.2.2.1 unhealthyMR (by decide)).1, (h.2.2.2.1 unhealthyMR (by decide)).2,
    h.2.2.2.2.2.1, h.2.2.2.2.2.2.2 ⟨"packet-worker-healthcheck-managed-resource"⟩ (by decide)⟩

/-! ## The logging identity -/

/-- C9, as stated, fails: a unit without a logger and the same unit after
`SetLoggerSuffix` differ only in their logging identity, yet on a failing fetch the first
panics and the second returns an error. -/
theorem logger_presence_changes_outcome :
    ((unitNoLogger (listClient [])).SetLoggerSuffix "packet" "worker").seedClient
      = (unitNoLogger (listClient [])).seedClient ∧
    ((unitNoLogger (listClient [])).SetLoggerSuffix "packet" "worker").managedResourceName
      = (unitNoLogger (listClient [])).managedResourceName ∧
    ((unitNoLogger (listClient [])).Check sampleCheckMR liveCtx ⟨"ns1", "shoot-h"⟩).outcome
      = .panicked ∧
    (((unitNoLogger (listClient [])).SetLoggerSuffix "packet" "worker").Check sampleCheckMR
      liveCtx ⟨"ns1", "shoot-h"⟩).outcome
      = .returned none (some ⟨"check Managed Resource failed. Unable to retrieve managed resource \x27frontend-mr\x27 in namespace \x27ns1\x27: not found"⟩) ∧
    ((unitNoLogger (listClient [])).Check sampleCheckMR liveCtx ⟨"ns1", "shoot-h"⟩).outcome
      ≠ (((unitNoLogger (listClient [])).SetLoggerSuffix "packet" "worker").Check
        sampleCheckMR liveCtx ⟨"ns1", "shoot-h"⟩).outcome :=
  ⟨rfl, rfl, by decide, by decide, by decide⟩

theorem outcome_congr_logger (checkMR : ManagedResource → Option GoError)
    (u1 u2 : ManagedResourceHealthChecker) (ctx : Context) (request : NamespacedName)
    (hc : u1.seedClient = u2.seedClient)
    (hn : u1.managedResourceName = u2.managedResourceName)
    (hl : u1.logger.isSome = u2.logger.isSome) :
    (u1.Check checkMR ctx request).outcome = (u2.Check checkMR ctx request).outcome := by
  obtain ⟨l1, c1, n1⟩ := u1
  obtain ⟨l2, c2, n2⟩ := u2
  simp only at hc hn
  subst hc hn
  cases l1 <;> cases l2 <;> simp at hl
  · rfl
  · cases c1 with
    | none => rfl
    | some c =>
      cases hget : c.Get ctx ⟨request.Namespace, n1⟩ with
      | error err =>
        rw [check_of_get_error checkMR _ c ctx request err rfl hget,
          check_of_get_error checkMR _ c ctx request err rfl hget]
      | ok mr =>
        cases hev : checkMR mr with
        | none =>
          rw [check_of_healthy checkMR _ c ctx request mr rfl hget hev,
            check_of_healthy checkMR _ c ctx request mr rfl hget hev]
        | some e =>
          rw [check_of_unhealthy checkMR _ c ctx request mr e rfl hget hev,
            check_of_unhealthy checkMR _ c ctx request mr e rfl hget hev]

/-- C9, amended: for all strings `provider` and `extension`, `SetLoggerSuffix` sets the
unit's logging identity to exactly
`provider ++ "-" ++ extension ++ "-healthcheck-managed-resource"` and changes no other
field; the `(result, error)` pair returned by `Check`, or its panic, is the same for two
units that differ only in their logging identity when both have a logger set or neither
has. -/
theorem setLoggerSuffix_identity (checkMR : ManagedResource → Option GoError)
    (u u1 u2 : ManagedResourceHealthChecker) (provider extension : String) (ctx : Context)
    (request : NamespacedName) (hc : u1.seedClient = u2.seedClient)
    (hn : u1.managedResourceName = u2.managedResourceName)
    (hl : u1.logger.isSome = u2.logger.isSome) :
    (u.SetLoggerSuffix provider extension).logger
      = some ⟨provider ++ "-" ++ extension ++ "-healthcheck-managed-resource"⟩ ∧
    (u.SetLoggerSuffix provider extension).seedClient = u.seedClient ∧
    (u.SetLoggerSuffix provider extension).managedResourceName = u.managedResourceName ∧
    (u1.Check checkMR ctx request).outcome = (u2.Check checkMR ctx request).outcome :=
  ⟨rfl, rfl, rfl, outcome_congr_logger checkMR u1 u2 ctx request hc hn hl⟩

/-- C9, amended, on two units for `frontend-mr` that share a failing accessor and were
given the identities of `packet`/`worker` and `gcp`/`infrastructure`. -/
theorem setLoggerSuffix_identity_witness :
    (unitWith (listClient [])).seedClient
      = ((unitNoLogger (listClient [])).SetLoggerSuffix "gcp" "infrastructure").seedClient ∧
    (unitWith (listClient [])).managedResourceName
      = ((unitNoLogger (listClient [])).SetLoggerSuffix "gcp"
        "infrastructure").managedResourceName ∧
    (unitWith (listClient [])).logger.isSome
      = ((unitNoLogger (listClient [])).SetLoggerSuffix "gcp" "infrastructure").logger.isSome ∧
    ((unitNoLogger (listClient [])).SetLoggerSuffix "gcp" "infrastructure").logger
      = some ⟨"gcp" ++ "-" ++ "infrastructure" ++ "-healthcheck-managed-resource"⟩ ∧
    ((unitNoLogger (listClient [])).SetLoggerSuffix "gcp" "infrastructure").seedClient
      = (unitNoLogger (listClient [])).seedClient ∧
    ((unitNoLogger (listClient [])).SetLoggerSuffix "gcp" "infrastructure").managedResourceName
      = (unitNoLogger (listClient [])).managedResourceName ∧
    ((unitWith (listClient [])).Check sampleCheckMR liveCtx ⟨"ns1", "shoot-i"⟩).outcome
      = (((unitNoLogger (listClient [])).SetLoggerSuffix "gcp" "infrastructure").Check
        sampleCheckMR liveCtx ⟨"ns1", "shoot-i"⟩).outcome :=
  ⟨rfl, rfl, rfl,
    setLoggerSuffix_identity sampleCheckMR (unitNoLogger (listClient []))
      (unitWith (listClient []))
      ((unitNoLogger (listClient [])).SetLoggerSuffix "gcp" "infrastructure")
      "gcp" "infrastructure" liveCtx ⟨"ns1", "shoot-i"⟩ rfl rfl rfl⟩

/-! ## The resource name is fixed -/

theorem step_check (checkMR : ManagedResource → Option GoError) (h : Heap) (p : Ptr)
    (ctx : Context) (request : NamespacedName) :
    h.step checkMR (.check p ctx request) = h := by
  simp only [Heap.step, Heap.Check]
  cases h.load p <;> rfl

theorem step_load_name (checkMR : ManagedResource → Option GoError) (h : Heap) (call : Call)
    (p : Ptr) (u : ManagedResourceHealthChecker) (hp : h.load p = some u) :
    ∃ v, (h.step checkMR call).load p = some v ∧
      v.managedResourceName = u.managedResourceName := by
  cases call with
  | injectSeedClient q c =>
    simp only [Heap.step, Heap.InjectSeedClient]
    cases hq : h.load q with
    | none => exact ⟨u, hp, rfl⟩
    | some w =>
      simp only [Option.map_some', Option.getD_some]
      by_cases hqp : q = p
      · subst hqp
        rw [hp] at hq
        cases hq
        exact ⟨_, load_store_same h _ u q hp, rfl⟩
      · rw [load_store_other h _ q p hqp]
        exact ⟨u, hp, rfl⟩
  | setLoggerSuffix q provider extension =>
    simp only [Heap.step, Heap.SetLoggerSuffix]
    cases hq : h.load q with
    | none => exact ⟨u, hp, rfl⟩
    | some w =>
      simp only [Option.map_some', Option.getD_some]
      by_cases hqp : q = p
      · subst hqp
        rw [hp] at hq
        cases hq
        exact ⟨_, load_store_same h _ u q hp, rfl⟩
      · rw [load_store_other h _ q p hqp]
        exact ⟨u, hp, rfl⟩
  | deepCopy q =>
    simp only [Heap.step, Heap.DeepCopy]
    cases hq : h.load q with
    | none => exact ⟨u, hp, rfl⟩
    | some w =>
      simp only [Option.map_some', Option.getD_some]
      exact ⟨u, load_alloc_old h w u p hp, rfl⟩
  | check q ctx request =>
    rw [step_check]
    exact ⟨u, hp, rfl⟩

theorem run_load_name (checkMR : ManagedResource → Option GoError) (calls : List Call) :
    ∀ (h : Heap) (p : Ptr) (u : ManagedResourceHealthChecker), h.load p = some u →
      ∃ v, (h.run checkMR calls).load p = some v ∧
        v.managedResourceName = u.managedResourceName := by
  induction calls with
  | nil => intro h p u hp; exact ⟨u, hp, rfl⟩
  | cons call calls ih =>
    intro h p u hp
    obtain ⟨v, hv, hvn⟩ := step_load_name checkMR h call p u hp
    obtain ⟨w, hw, hwn⟩ := ih (h.step checkMR call) p v hv
    exact ⟨w, hw, hwn.trans hvn⟩

theorem mem_of_load (h : Heap) (p : Ptr) (u : ManagedResourceHealthChecker)
    (hp : h.load p = some u) : u ∈ h.cells :=
  List.getElem?_mem hp

theorem store_all_names (h : Heap) (p : Ptr) (v : ManagedResourceHealthChecker) (n : String)
    (hall : ∀ w ∈ h.cells, w.managedResourceName = n) (hv : v.managedResourceName = n) :
    ∀ w ∈ (h.store p v).cells, w.managedResourceName = n := by
  intro w hw
  rcases List.mem_or_eq_of_mem_set hw with hmem | heq
  · exact hall w hmem
  · rw [heq]; exact hv

theorem step_all_names (checkMR : ManagedResource → Option GoError) (h : Heap) (call : Call)
    (n : String) (hall : ∀ w ∈ h.cells, w.managedResourceName = n) :
    ∀ w ∈ (h.step checkMR call).cells, w.managedResourceName = n := by
  cases call with
  | injectSeedClient q c =>
    simp only [Heap.step, Heap.InjectSeedClient]
    cases hq : h.load q with
    | none => exact hall
    | some u =>
      exact store_all_names h q _ n hall (hall u (mem_of_load h q u hq))
  | setLoggerSuffix q provider extension =>
    simp only [Heap.step, Heap.SetLoggerSuffix]
    cases hq : h.load q with
    | none => exact hall
    | some u =>
      exact store_all_names h q _ n hall (hall u (mem_of_load h q u hq))
  | deepCopy q =>
    simp only [Heap.step, Heap.DeepCopy]
    cases hq : h.load q with
    | none => exact hall
    | some u =>
      intro w hw
      simp only [Option.map_some', Option.getD_some, Heap.alloc, List.mem_append,
        List.mem_singleton] at hw
      rcases hw with hmem | heq
      · exact hall w hmem
      · rw [heq]; exact hall u (mem_of_load h q u hq)
  | check q ctx request =>
    rw [step_check]
    exact hall

theorem run_all_names (checkMR : ManagedResource → Option GoError) (calls : List Call)
    (n : String) :
    ∀ h : Heap, (∀ w ∈ h.cells, w.managedResourceName = n) →
      ∀ w ∈ (h.run checkMR calls).cells, w.managedResourceName = n := by
  induction calls with
  | nil => intro h hall; exact hall
  | cons call calls ih =>
    intro h hall
    exact ih (h.step checkMR call) (step_all_names checkMR h call n hall)

/-- C10: `CheckManagedResource name` returns, for every string `name`, a unit with
`managedResourceName = name` and with accessor and logger unset, at a new address; after
any sequence of `InjectSeedClient`, `SetLoggerSuffix`, `DeepCopy` and `Check` calls, on any
addresses, the unit at that address still has `managedResourceName = name`, and so has
every unit of a heap that started with this unit alone (the unit and all its copies); and
`Check` leaves the heap, hence every field of every unit, as it was. -/
theorem managedResourceName_fixed (checkMR : ManagedResource → Option GoError)
    (name : String) (h : Heap) (calls : List Call) (p : Ptr) (ctx : Context)
    (request : NamespacedName) :
    (CheckManagedResource name).managedResourceName = name ∧
    (CheckManagedResource name).seedClient = none ∧
    (CheckManagedResource name).logger = none ∧
    (h.CheckManagedResource name).1.load (h.CheckManagedResource name).2
      = some (CheckManagedResource name) ∧
    (∃ v, ((h.CheckManagedResource name).1.run checkMR calls).load
        (h.CheckManagedResource name).2 = some v ∧ v.managedResourceName = name) ∧
    (∀ w ∈ (((Heap.mk []).CheckManagedResource name).1.run checkMR calls).cells,
      w.managedResourceName = name) ∧
    h.step checkMR (.check p ctx request) = h ∧
    (h.Check checkMR p ctx request).map Prod.fst = (h.load p).map fun _ => h := by
  refine ⟨rfl, rfl, rfl, load_alloc_new h _, ?_, ?_, step_check checkMR h p ctx request, ?_⟩
  · exact run_load_name checkMR calls _ _ _ (load_alloc_new h _)
  · apply run_all_names checkMR calls name
    intro w hw
    simp only [Heap.CheckManagedResource, Heap.alloc, List.nil_append,
      List.mem_singleton] at hw
    rw [hw]
    rfl
  · simp only [Heap.Check]
    cases h.load p <;> rfl

/-- C10 on the empty name, a heap that already holds a unit, and a sequence of calls
that injects, copies, renames the logger of a copy, checks, and injects a nil accessor. -/
theorem managedResourceName_fixed_witness :
    (CheckManagedResource "").managedResourceName = "" ∧
    (sampleHeap.CheckManagedResource "").1.load 1 = some (CheckManagedResource "") ∧
    (∃ v, ((sampleHeap.CheckManagedResource "").1.run sampleCheckMR sampleCalls).load 1
        = some v ∧ v.managedResourceName = "") ∧
    (∀ w ∈ (((Heap.mk []).CheckManagedResource "").1.run sampleCheckMR sampleCalls).cells,
      w.managedResourceName = "") ∧
    sampleHeap.step sampleCheckMR (.check 0 cancelledCtx ⟨"ns1", "shoot-j"⟩) = sampleHeap :=
  have h := managedResourceName_fixed sampleCheckMR "" sampleHeap sampleCalls 0 cancelledCtx
    ⟨"ns1", "shoot-j"⟩
  ⟨h.1, h.2.2.2.1, h.2.2.2.2.1, h.2.2.2.2.2.1, h.2.2.2.2.2.2.1⟩

end General
